import Mathlib

/-!
Shallow embedding of the department-console data pipeline
(`app/models.py`, `app/services/csv_loader.py`, `app/services/geojson_loader.py`,
`app/services/data_loader.py`).

Conventions of the embedding:
* A resolved absolute filesystem path is a list of components (`List String`);
  `Path.resolve()` is assumed to have already happened.
* A CSV file is represented by its size in bytes plus the list of rows that
  `pd.read_csv(...).to_dict("records")` would produce; a GeoJSON file by its
  size plus the list of parsed features.
* Machine floats of pandas are modelled by `ℚ` (the inputs are small integers,
  so every derived ratio is exact).
* Fallible loaders return `Except`.
-/

set_option autoImplicit false

deriving instance DecidableEq for Except

namespace DeptConsole

/-- A parsed JSON / CSV cell value (the fragment of JSON the pipeline touches). -/
inductive Json where
  | str (s : String)
  | num (q : ℚ)
  | arr (items : List Json)
  | null

/-- `MAX_FILE_SIZE = 100 * 1024 * 1024` from `csv_loader.py` / `geojson_loader.py`. -/
def MAX_FILE_SIZE : Nat := 100 * 1024 * 1024

/-- Errors raised by `CSVLoader` methods (`ValueError` in the source, with the
three distinguishable messages: path traversal, size limit, validation failure
wrapped with the file path). -/
inductive LoadError (E : Type) where
  | size (path : List String) (fileSize : Nat)
  | traversal (path : List String) (base : List String)
  | validation (path : List String) (rowIndex : Nat) (err : E)
deriving DecidableEq

/-- One raw row of `organizations.csv` as produced by `pd.read_csv`:
exactly the eight input columns of `OrganizationRecord` (`app/models.py`). -/
structure OrgRow where
  city : String
  region : String
  by_staff : Int
  by_list : Int
  buget_limits : Int
  cash_execution : Int
  equipment : Int
  faulty_equipment : Int
deriving DecidableEq

/-- A single pydantic violation on an `OrganizationRecord`. -/
inductive OrgViolation where
  /-- a `ge=0, le=100` field constraint failed; carries the field name -/
  | fieldRange (field : String)
  /-- a cross-field rule of `validate_dependencies` failed; names both fields -/
  | crossField (fieldA fieldB : String)
deriving DecidableEq

/-- The `ge=0, le=100` check of one integer field of `OrganizationRecord`. -/
def intRangeViolations (field : String) (v : Int) : List OrgViolation :=
  if 0 ≤ v ∧ v ≤ 100 then [] else [OrgViolation.fieldRange field]

/-- All field-level violations of one `OrganizationRecord` row: pydantic
collects the per-field errors of every declared field. -/
def orgFieldViolations (r : OrgRow) : List OrgViolation :=
  intRangeViolations "by_staff" r.by_staff
    ++ intRangeViolations "by_list" r.by_list
    ++ intRangeViolations "buget_limits" r.buget_limits
    ++ intRangeViolations "cash_execution" r.cash_execution
    ++ intRangeViolations "equipment" r.equipment
    ++ intRangeViolations "faulty_equipment" r.faulty_equipment

/-- `OrganizationRecord.validate_dependencies` (`model_validator(mode="after")`):
runs only after all field checks pass and raises at the first violated rule. -/
def orgCrossViolation (r : OrgRow) : Option OrgViolation :=
  if r.by_list > r.by_staff then
    some (OrgViolation.crossField "by_list" "by_staff")
  else if r.cash_execution > r.buget_limits then
    some (OrgViolation.crossField "cash_execution" "buget_limits")
  else if r.faulty_equipment > r.equipment then
    some (OrgViolation.crossField "faulty_equipment" "equipment")
  else
    none

/-- `OrganizationRecord.model_validate` on one row: field checks (errors
collected across fields), then the after-model cross-field validator. -/
def validateOrganizationRecord (r : OrgRow) : Except (List OrgViolation) OrgRow :=
  match orgFieldViolations r with
  | [] =>
    match orgCrossViolation r with
    | none => Except.ok r
    | some v => Except.error [v]
  | v :: vs => Except.error (v :: vs)

/-- The four derived columns of `load_organizations_data`, computed on the raw
dataframe before validation (`csv_loader.py` lines 104-109). -/
structure OrgDerived where
  staffing : ℚ
  cash_use : ℚ
  serviceability : ℚ
  value : ℚ
deriving DecidableEq

/-- `df["staffing"] = by_list / by_staff`, `df["cash_use"] = cash_execution /
buget_limits`, `df["serviceability"] = (equipment - faulty_equipment) /
equipment`, `df["value"] = min` of the three. -/
def computeDerived (r : OrgRow) : OrgDerived :=
  let staffing : ℚ := (r.by_list : ℚ) / (r.by_staff : ℚ)
  let cash_use : ℚ := (r.cash_execution : ℚ) / (r.buget_limits : ℚ)
  let serviceability : ℚ :=
    ((r.equipment : ℚ) - (r.faulty_equipment : ℚ)) / (r.equipment : ℚ)
  { staffing := staffing
    cash_use := cash_use
    serviceability := serviceability
    value := min staffing (min cash_use serviceability) }

/-- One row of the dataframe returned by `load_organizations_data`: the eight
validated raw columns plus the four re-attached derived columns. -/
structure OrgOutRow where
  city : String
  region : String
  by_staff : Int
  by_list : Int
  buget_limits : Int
  cash_execution : Int
  equipment : Int
  faulty_equipment : Int
  staffing : ℚ
  cash_use : ℚ
  serviceability : ℚ
  value : ℚ
deriving DecidableEq

/-- Re-attach the derived columns to a validated row (`valid_df["staffing"] =
calculated_cols["staffing"]` etc.; both frames share the same row index). -/
def mkOut (r : OrgRow) (d : OrgDerived) : OrgOutRow :=
  { city := r.city
    region := r.region
    by_staff := r.by_staff
    by_list := r.by_list
    buget_limits := r.buget_limits
    cash_execution := r.cash_execution
    equipment := r.equipment
    faulty_equipment := r.faulty_equipment
    staffing := d.staffing
    cash_use := d.cash_use
    serviceability := d.serviceability
    value := d.value }

/-- The list comprehension `[model.model_validate(record) for record in ...]`:
rows are validated in order and the comprehension raises at the FIRST row whose
validation fails; the raised error carries only that row's violations. -/
def validateRowsFrom {α β E : Type} (validate : α → Except E β) :
    Nat → List α → Except (Nat × E) (List β)
  | _, [] => Except.ok []
  | i, r :: rs =>
    match validate r with
    | Except.error e => Except.error (i, e)
    | Except.ok b =>
      match validateRowsFrom validate (i + 1) rs with
      | Except.error ie => Except.error ie
      | Except.ok bs => Except.ok (b :: bs)

/-- Validate all rows starting at index 0. -/
def validateRows {α β E : Type} (validate : α → Except E β) (rows : List α) :
    Except (Nat × E) (List β) :=
  validateRowsFrom validate 0 rows

/-- `CSVLoader.load_organizations_data` (`csv_loader.py` lines 71-149):
size guard, derived columns computed BEFORE validation, validation of the eight
raw columns only, then the derived columns re-attached by row position. -/
def load_organizations_data (path : List String) (fileSize : Nat)
    (rows : List OrgRow) : Except (LoadError (List OrgViolation)) (List OrgOutRow) :=
  if fileSize > MAX_FILE_SIZE then
    Except.error (LoadError.size path fileSize)
  else
    let calculated := rows.map computeDerived
    match validateRows validateOrganizationRecord rows with
    | Except.error ie => Except.error (LoadError.validation path ie.1 ie.2)
    | Except.ok valid => Except.ok (List.zipWith mkOut valid calculated)

/-- One validated row of `data.csv` (`AnalyticRecord`, `app/models.py`). -/
structure ARow where
  region_name : String
  region : String
  value : ℚ
  percent_change : ℚ
  budget_millions : ℚ
  population_change : ℚ
  details : String
deriving DecidableEq

/-- One raw row of `data.csv` as a field-name/value mapping, before pydantic. -/
structure AnalyticRawRow where
  fields : List (String × Json)

/-- First value bound to a field name in a raw record. -/
def lookupField (fs : List (String × Json)) (k : String) : Option Json :=
  (fs.find? fun p => p.1 == k).map Prod.snd

/-- The declared field names of `AnalyticRecord`. -/
def analyticFieldNames : List String :=
  ["region_name", "region", "value", "percent_change",
   "budget_millions", "population_change", "details"]

/-- A required `str` field of `AnalyticRecord`. -/
def strField (fs : List (String × Json)) (k : String) : Except String String :=
  match lookupField fs k with
  | some (Json.str s) => Except.ok s
  | some _ => Except.error (k ++ ": not a string")
  | none => Except.error (k ++ ": missing")

/-- A required `float` field of `AnalyticRecord` (numeric CSV columns arrive
from `pd.read_csv` already parsed as numbers). -/
def numField (fs : List (String × Json)) (k : String) : Except String ℚ :=
  match lookupField fs k with
  | some (Json.num q) => Except.ok q
  | some _ => Except.error (k ++ ": not a number")
  | none => Except.error (k ++ ": missing")

/-- Error list contributed by one field check. -/
def errsOf {α : Type} : Except String α → List String
  | Except.error e => [e]
  | Except.ok _ => []

/-- `AnalyticRecord.model_validate`: all seven declared fields checked (errors
collected across fields) and, because of `extra="forbid"`, every unknown field
is itself an error. -/
def validateAnalyticRecord (r : AnalyticRawRow) : Except (List String) ARow :=
  let e1 := strField r.fields "region_name"
  let e2 := strField r.fields "region"
  let e3 := numField r.fields "value"
  let e4 := numField r.fields "percent_change"
  let e5 := numField r.fields "budget_millions"
  let e6 := numField r.fields "population_change"
  let e7 := strField r.fields "details"
  let extras :=
    (r.fields.filter fun p => !(analyticFieldNames.contains p.1)).map
      fun p => p.1 ++ ": extra field"
  match e1, e2, e3, e4, e5, e6, e7 with
  | Except.ok a, Except.ok b, Except.ok v, Except.ok pc, Except.ok bm,
    Except.ok pop, Except.ok d =>
    if extras.isEmpty then
      Except.ok
        { region_name := a
          region := b
          value := v
          percent_change := pc
          budget_millions := bm
          population_change := pop
          details := d }
    else
      Except.error extras
  | _, _, _, _, _, _, _ =>
    Except.error
      (errsOf e1 ++ errsOf e2 ++ errsOf e3 ++ errsOf e4 ++ errsOf e5
        ++ errsOf e6 ++ errsOf e7 ++ extras)

/-- `CSVLoader.load_analytic_data` (`csv_loader.py` lines 24-68): size guard
then per-row `AnalyticRecord` validation, errors wrapped with the file path. -/
def load_analytic_data (path : List String) (fileSize : Nat)
    (rows : List AnalyticRawRow) : Except (LoadError (List String)) (List ARow) :=
  if fileSize > MAX_FILE_SIZE then
    Except.error (LoadError.size path fileSize)
  else
    match validateRows validateAnalyticRecord rows with
    | Except.error ie => Except.error (LoadError.validation path ie.1 ie.2)
    | Except.ok valid => Except.ok valid

/-- `Path.relative_to(resolved_base)` succeeds on resolved absolute paths
exactly when the base's components are a prefix of the path's components (the
path equal to the base itself also succeeds). -/
def isDescendantOf (path base : List String) : Bool :=
  List.isPrefixOf base path

/-- `CSVLoader.load_csv` (`csv_loader.py` lines 152-216): path-traversal guard
first (when `base_dir` is supplied), then size guard, then per-row validation
against the given model. The traversal branch raises before `path.stat()` or
`pd.read_csv`, so its outcome cannot depend on `fileSize` or `rows`. -/
def load_csv {α β E : Type} (validate : α → Except E β) (path : List String)
    (base_dir : Option (List String)) (fileSize : Nat) (rows : List α) :
    Except (LoadError E) (List β) :=
  match base_dir with
  | some base =>
    if isDescendantOf path base then
      if fileSize > MAX_FILE_SIZE then
        Except.error (LoadError.size path fileSize)
      else
        match validateRows validate rows with
        | Except.error ie => Except.error (LoadError.validation path ie.1 ie.2)
        | Except.ok valid => Except.ok valid
    else
      Except.error (LoadError.traversal path base)
  | none =>
    if fileSize > MAX_FILE_SIZE then
      Except.error (LoadError.size path fileSize)
    else
      match validateRows validate rows with
      | Except.error ie => Except.error (LoadError.validation path ie.1 ie.2)
      | Except.ok valid => Except.ok valid

/-- One GeoJSON feature as parsed by `gpd.read_file` and reassembled by
`load_and_validate_geojson_file` (properties flattened, timestamps stringified,
tuple coordinates already converted to lists by `_convert_to_lists`). -/
structure RawFeature where
  /-- `properties.name`, when the file provides it -/
  name : Option Json
  /-- `geometry.type` -/
  geometryType : String
  /-- `geometry.coordinates` -/
  coordinates : Json

/-- `GeoJSONFeature.model_validate` (`app/models.py`): `properties.name` must be
a string, `geometry.type` must be `Polygon` or `MultiPolygon`, and
`coordinates` must be a list; extra properties are ignored (`extra="ignore"`). -/
def validFeature (f : RawFeature) : Bool :=
  (match f.name with
   | some (Json.str _) => true
   | _ => false)
    && (f.geometryType == "Polygon" || f.geometryType == "MultiPolygon")
    && (match f.coordinates with
        | Json.arr _ => true
        | _ => false)

/-- A `.geojson` file on disk: its resolved path, its size in bytes
(`path.stat().st_size`) and the features `gpd.read_file` parses out of it. -/
structure GeoFileInput where
  path : List String
  fileSize : Nat
  features : List RawFeature

/-- Errors raised by the GeoJSON loaders (`ValueError` in the source). -/
inductive GeoLoadError where
  /-- size guard: "Размер файла ... превышает максимально допустимый" -/
  | size (path : List String) (fileSize : Nat)
  /-- single-feature guard: "GeoJSON {path} должен содержать один объект,
  получено: {len(raw)}" — carries the path and the count found -/
  | structural (path : List String) (featureCount : Nat)
  /-- pydantic `GeoJSONFeature` validation failure -/
  | invalidFeature (path : List String)

/-- `load_and_validate_geojson_file` (`geojson_loader.py` lines 26-90):
size guard, then the single-feature guard on the parsed contents, then pydantic
validation of the reconstructed feature; on success the geometry row is
returned. -/
def load_and_validate_geojson_file (f : GeoFileInput) :
    Except GeoLoadError RawFeature :=
  if f.fileSize > MAX_FILE_SIZE then
    Except.error (GeoLoadError.size f.path f.fileSize)
  else
    match f.features with
    | [feat] =>
      if validFeature feat then Except.ok feat
      else Except.error (GeoLoadError.invalidFeature f.path)
    | fs => Except.error (GeoLoadError.structural f.path fs.length)

/-- `DataLoader._load_and_validate_geojson_file` (`data_loader.py` lines
33-78): the duplicated per-file loader used by `DataLoader.create_gdf`.
It performs NO size check: it goes straight to `gpd.read_file`, the
single-feature guard and pydantic validation. -/
def DataLoader_load_and_validate_geojson_file (f : GeoFileInput) :
    Except GeoLoadError RawFeature :=
  match f.features with
  | [feat] =>
    if validFeature feat then Except.ok feat
    else Except.error (GeoLoadError.invalidFeature f.path)
  | fs => Except.error (GeoLoadError.structural f.path fs.length)

/-- One row of the concatenated geometry table. `name` and `geometry` come
from the validated feature (both always present after validation); `cells`
holds this row's values for the remaining property columns of the concatenated
frame, in the order of the table header (`none` is pandas `NaN`, filled in by
`pd.concat` for columns the originating file lacks). -/
structure GRow where
  name : String
  geometry : Json
  cells : List (Option Json)

/-- The geometry table produced by
`pd.concat(gdf_data, ignore_index=True)`: a shared header for the property
columns other than `name`/`geometry`, and the rows. -/
structure GTable where
  header : List String
  rows : List GRow

/-- `True` when column `j` has a non-null value in every row — i.e. the column
survives `dropna(axis=1)` (pandas default `how="any"`). -/
def colComplete (rows : List GRow) (j : Nat) : Bool :=
  rows.all fun r => (r.cells.getD j none).isSome

/-- Keep the entries of a list whose (0-based, offset by `j`) position
satisfies `p`. -/
def filterByIdx {α : Type} (p : Nat → Bool) : Nat → List α → List α
  | _, [] => []
  | j, a :: as =>
    if p j then a :: filterByIdx p (j + 1) as else filterByIdx p (j + 1) as

/-- How many of the positions `s, s+1, …, s+j-1` satisfy `p` — i.e. how many
of the first `j` columns survive the column filter. -/
def keptBefore (p : Nat → Bool) : Nat → Nat → Nat
  | _, 0 => 0
  | s, j + 1 => (if p s then 1 else 0) + keptBefore p (s + 1) j

/-- `json_df.dropna(inplace=True, axis=1)` (`geojson_loader.py` line 132,
`data_loader.py` line 127): pandas' default is `how="any"`, so a property
column is kept exactly when none of its values is null. The `name` and
`geometry` columns are never null after validation and always survive. -/
def dropna_axis1 (t : GTable) : GTable :=
  { header := filterByIdx (colComplete t.rows) 0 t.header
    rows := t.rows.map fun r =>
      { r with cells := filterByIdx (colComplete t.rows) 0 r.cells } }

/-- Modelled from the spec's words (for comparison only): "drops any column
that is entirely empty" — a column is dropped exactly when every one of its
values is null. -/
def dropAllNullCols (t : GTable) : GTable :=
  let keep := fun j => !(t.rows.all fun r => (r.cells.getD j none).isNone)
  { header := filterByIdx keep 0 t.header
    rows := t.rows.map fun r => { r with cells := filterByIdx keep 0 r.cells } }

/-- `drop_duplicates(subset="name")` (`geojson_loader.py` line 136,
`data_loader.py` line 131): pandas' default `keep="first"` keeps the first row
bearing each name and drops every later one. -/
def dedupByName : List GRow → List GRow
  | [] => []
  | g :: gs => g :: dedupByName (gs.filter fun x => x.name != g.name)
termination_by l => l.length
decreasing_by
  simp only [List.length_cons]
  exact Nat.lt_succ_of_le (List.length_filter_le _ _)

/-- `GeoJSONLoader.load_all_regions` (`geojson_loader.py` lines 110-138) after
the per-file loads: the concatenated table is the input (per-file reading is
`load_and_validate_geojson_file`); then `dropna(axis=1)` and
`drop_duplicates(subset="name")`, in that order. -/
def load_all_regions (t : GTable) : GTable :=
  let d := dropna_axis1 t
  { d with rows := dedupByName d.rows }

/-- One row of the merged table of `DataLoader.create_gdf`: a geometry row
plus the matched analytic row, `none` when the left join found no match. -/
structure MRow where
  geo : GRow
  analytic : Option ARow

/-- `json_df.merge(analytic_df, left_on="name", right_on="region",
how="left")`: every geometry row is kept; a geometry row with `m ≥ 1` matching
analytic rows yields `m` output rows, one per match; with no match it yields a
single row whose analytic columns are null. -/
def leftMergeOnName (geo : List GRow) (an : List ARow) : List MRow :=
  geo.flatMap fun g =>
    match an.filter (fun a => a.region == g.name) with
    | [] => [{ geo := g, analytic := none }]
    | ms => ms.map fun a => { geo := g, analytic := some a }

/-- `DataLoader.create_gdf` (`data_loader.py` lines 100-141) from the
concatenated geometry table on: `dropna(axis=1)`, `drop_duplicates("name")`,
then the left merge with the validated analytic rows. -/
def create_gdf (t : GTable) (an : List ARow) : List MRow :=
  leftMergeOnName (dedupByName (dropna_axis1 t).rows) an

/-- Recognizer for the size-limit error of the GeoJSON loader. -/
def isGeoSizeFailure (res : Except GeoLoadError RawFeature) : Bool :=
  match res with
  | Except.error (GeoLoadError.size _ _) => true
  | _ => false

/-- Recognizer for the size-limit error of the CSV loaders. -/
def isCsvSizeFailure {E β : Type} (res : Except (LoadError E) β) : Bool :=
  match res with
  | Except.error (LoadError.size _ _) => true
  | _ => false

/-! ### Concrete sample data used to evaluate the theorems -/

/-- The scenario row of the spec: `(city="X", region="Adygeya", by_staff=100,
by_list=80, buget_limits=100, cash_execution=90, equipment=50,
faulty_equipment=5)`. -/
def exOrgRow : OrgRow :=
  { city := "X"
    region := "Adygeya"
    by_staff := 100
    by_list := 80
    buget_limits := 100
    cash_execution := 90
    equipment := 50
    faulty_equipment := 5 }

/-- An invalid organization row: `by_staff = 200` breaks `le=100`. -/
def badOrg1 : OrgRow :=
  { city := "a"
    region := "r1"
    by_staff := 200
    by_list := 0
    buget_limits := 0
    cash_execution := 0
    equipment := 0
    faulty_equipment := 0 }

/-- Another invalid organization row: `equipment = -5` breaks `ge=0`. -/
def badOrg2 : OrgRow :=
  { city := "b"
    region := "r2"
    by_staff := 10
    by_list := 0
    buget_limits := 0
    cash_execution := 0
    equipment := -5
    faulty_equipment := 0 }

/-- A geometry row for region `A`. -/
def exGeoA : GRow := { name := "A", geometry := Json.null, cells := [] }

/-- A second geometry row that duplicates region `A`. -/
def exGeoA2 : GRow := { name := "A", geometry := Json.str "second", cells := [] }

/-- A geometry row for region `B`. -/
def exGeoB : GRow := { name := "B", geometry := Json.null, cells := [] }

/-- Concatenated geometry table with the single region `A`. -/
def exT1 : GTable := { header := [], rows := [exGeoA] }

/-- Concatenated geometry table with regions `A` and `B`. -/
def exTW : GTable := { header := [], rows := [exGeoA, exGeoB] }

/-- Concatenated geometry table with a duplicated region name. -/
def exT6 : GTable := { header := [], rows := [exGeoA, exGeoA2, exGeoB] }

/-- A validated analytic row for region `A`. -/
def exAnA1 : ARow :=
  { region_name := "n1"
    region := "A"
    value := 1
    percent_change := 0
    budget_millions := 0
    population_change := 0
    details := "d1" }

/-- A second validated analytic row for the same region `A`. -/
def exAnA2 : ARow :=
  { region_name := "n2"
    region := "A"
    value := 2
    percent_change := 0
    budget_millions := 0
    population_change := 0
    details := "d2" }

/-- Concatenated geometry table whose `cartodb_id` column holds one non-null
value and one null: pandas `dropna(axis=1)` drops it. -/
def exT5 : GTable :=
  { header := ["cartodb_id"]
    rows :=
      [{ name := "A", geometry := Json.null, cells := [some (Json.num 37)] },
       { name := "B", geometry := Json.null, cells := [none] }] }

/-- Concatenated geometry table with no nulls at all. -/
def exT5w : GTable :=
  { header := ["cartodb_id"]
    rows :=
      [{ name := "A", geometry := Json.null, cells := [some (Json.num 1)] },
       { name := "B", geometry := Json.null, cells := [some (Json.num 2)] }] }

/-- Mixed concatenated table: the `cartodb_id` column contains a null, the
`name_latin` column does not. -/
def exT5m : GTable :=
  { header := ["cartodb_id", "name_latin"]
    rows :=
      [{ name := "A", geometry := Json.null
         cells := [some (Json.num 37), some (Json.str "x")] },
       { name := "B", geometry := Json.null
         cells := [none, some (Json.str "y")] }] }

/-- A raw `data.csv` row missing its five required numeric/detail fields. -/
def exBadAnalytic : AnalyticRawRow :=
  { fields := [("region_name", Json.str "n"), ("region", Json.str "A")] }

/-- A well-formed single feature (the shape of `Adygeya.geojson`). -/
def featOk : RawFeature :=
  { name := some (Json.str "Adygeya")
    geometryType := "Polygon"
    coordinates := Json.arr [] }

/-- A small well-formed one-feature file. -/
def exGeoFileOk : GeoFileInput :=
  { path := ["regions", "Adygeya.geojson"], fileSize := 1000, features := [featOk] }

/-- A small file containing two features. -/
def exGeoFileTwo : GeoFileInput :=
  { path := ["regions", "two.geojson"], fileSize := 1000, features := [featOk, featOk] }

/-- A one-feature file one byte over the 100 MiB limit. -/
def bigGeoFile : GeoFileInput :=
  { path := ["regions", "big.geojson"]
    fileSize := MAX_FILE_SIZE + 1
    features := [featOk] }

/-- A one-feature file of exactly 104857600 bytes. -/
def boundaryGeoFile : GeoFileInput :=
  { path := ["regions", "edge.geojson"]
    fileSize := MAX_FILE_SIZE
    features := [featOk] }

/-! ### Helper lemmas -/

theorem validateRowsFrom_ok {α β E : Type} (validate : α → Except E β) :
    ∀ (i : Nat) (rows : List α) (bs : List β),
      validateRowsFrom validate i rows = Except.ok bs →
      bs.length = rows.length ∧
        ∀ (j : Nat) (r : α), rows[j]? = some r →
          ∃ b, validate r = Except.ok b ∧ bs[j]? = some b := by
  intro i rows
  induction rows generalizing i with
  | nil =>
    intro bs h
    simp only [validateRowsFrom] at h
    cases h
    simp
  | cons r rs ih =>
    intro bs h
    simp only [validateRowsFrom] at h
    cases hv : validate r with
    | error e => rw [hv] at h; cases h
    | ok b =>
      rw [hv] at h
      cases hrec : validateRowsFrom validate (i + 1) rs with
      | error ie => rw [hrec] at h; cases h
      | ok bs0 =>
        rw [hrec] at h
        cases h
        obtain ⟨hlen, hget⟩ := ih (i + 1) bs0 hrec
        refine ⟨by simp [hlen], ?_⟩
        intro j x hj
        cases j with
        | zero =>
          simp only [List.getElem?_cons_zero] at hj
          cases hj
          exact ⟨b, hv, by simp⟩
        | succ k =>
          simp only [List.getElem?_cons_succ] at hj
          obtain ⟨b0, hb0, hbs0⟩ := hget k x hj
          exact ⟨b0, hb0, by simpa using hbs0⟩

theorem validateRowsFrom_error {α β E : Type} (validate : α → Except E β) :
    ∀ (rows : List α) (i j : Nat) (e : E),
      validateRowsFrom validate i rows = Except.error (j, e) →
      i ≤ j ∧
        (∃ r, rows[j - i]? = some r ∧ validate r = Except.error e) ∧
        ∀ k, k < j - i → ∀ r, rows[k]? = some r → ∃ b, validate r = Except.ok b := by
  intro rows
  induction rows with
  | nil =>
    intro i j e h
    simp only [validateRowsFrom] at h
    cases h
  | cons r rs ih =>
    intro i j e h
    simp only [validateRowsFrom] at h
    cases hv : validate r with
    | error e0 =>
      rw [hv] at h
      cases h
      refine ⟨Nat.le_refl _, ⟨r, by simp, hv⟩, ?_⟩
      intro k hk
      omega
    | ok b =>
      rw [hv] at h
      cases hrec : validateRowsFrom validate (i + 1) rs with
      | error ie =>
        rw [hrec] at h
        cases h
        obtain ⟨hle, ⟨r0, hr0, hval⟩, hbefore⟩ := ih (i + 1) j e hrec
        have hji : j - i = (j - (i + 1)) + 1 := by omega
        refine ⟨by omega, ⟨r0, ?_, hval⟩, ?_⟩
        · rw [hji]
          simpa using hr0
        · intro k hk x hx
          cases k with
          | zero =>
            simp only [List.getElem?_cons_zero] at hx
            cases hx
            exact ⟨b, hv⟩
          | succ k0 =>
            simp only [List.getElem?_cons_succ] at hx
            exact hbefore k0 (by omega) x hx
      | ok bs0 => rw [hrec] at h; cases h

theorem validateOrganizationRecord_ok_eq {r b : OrgRow}
    (h : validateOrganizationRecord r = Except.ok b) : b = r := by
  unfold validateOrganizationRecord at h
  cases hf : orgFieldViolations r with
  | nil =>
    rw [hf] at h
    cases hc : orgCrossViolation r with
    | none => rw [hc] at h; cases h; rfl
    | some v => rw [hc] at h; cases h
  | cons v vs => rw [hf] at h; cases h

theorem intRangeViolations_nil {f : String} {v : Int}
    (h : intRangeViolations f v = []) : 0 ≤ v ∧ v ≤ 100 := by
  unfold intRangeViolations at h
  split at h
  · assumption
  · simp at h

theorem validateOrganizationRecord_ok_bounds {r : OrgRow}
    (h : validateOrganizationRecord r = Except.ok r) :
    (0 ≤ r.by_staff ∧ r.by_staff ≤ 100) ∧ (0 ≤ r.by_list ∧ r.by_list ≤ 100) ∧
      (0 ≤ r.buget_limits ∧ r.buget_limits ≤ 100) ∧
      (0 ≤ r.cash_execution ∧ r.cash_execution ≤ 100) ∧
      (0 ≤ r.equipment ∧ r.equipment ≤ 100) ∧
      (0 ≤ r.faulty_equipment ∧ r.faulty_equipment ≤ 100) ∧
      r.by_list ≤ r.by_staff ∧ r.cash_execution ≤ r.buget_limits ∧
      r.faulty_equipment ≤ r.equipment := by
  unfold validateOrganizationRecord at h
  cases hf : orgFieldViolations r with
  | cons v vs => rw [hf] at h; cases h
  | nil =>
    rw [hf] at h
    unfold orgFieldViolations at hf
    simp only [List.append_eq_nil] at hf
    obtain ⟨⟨⟨⟨⟨h1, h2⟩, h3⟩, h4⟩, h5⟩, h6⟩ := hf
    cases hc : orgCrossViolation r with
    | some v => rw [hc] at h; cases h
    | none =>
      unfold orgCrossViolation at hc
      split at hc
      · cases hc
      · split at hc
        · cases hc
        · split at hc
          · cases hc
          · refine ⟨intRangeViolations_nil h1, intRangeViolations_nil h2,
              intRangeViolations_nil h3, intRangeViolations_nil h4,
              intRangeViolations_nil h5, intRangeViolations_nil h6, ?_, ?_, ?_⟩
              <;> omega

theorem ratio_unit {a b : Int} (h0 : 0 ≤ a) (hab : a ≤ b) (hb : b ≠ 0) :
    0 ≤ (a : ℚ) / (b : ℚ) ∧ (a : ℚ) / (b : ℚ) ≤ 1 := by
  have hbpos : (0 : ℚ) < (b : ℚ) := by
    have hb0 : (0 : Int) < b := lt_of_le_of_ne (le_trans h0 hab) (Ne.symm hb)
    exact_mod_cast hb0
  constructor
  · exact div_nonneg (by exact_mod_cast h0) (le_of_lt hbpos)
  · rw [div_le_one hbpos]
    exact_mod_cast hab

theorem getElem?_zipWith {α β γ : Type} (f : α → β → γ) :
    ∀ (as : List α) (bs : List β) (i : Nat),
      (List.zipWith f as bs)[i]? =
        match as[i]?, bs[i]? with
        | some a, some b => some (f a b)
        | _, _ => none := by
  intro as
  induction as with
  | nil => intro bs i; simp
  | cons a as ih =>
    intro bs i
    cases bs with
    | nil => simp
    | cons b bs =>
      cases i with
      | zero => simp
      | succ n => simpa using ih bs n

theorem map_eq_self_of_mem {α : Type} {f : α → α} :
    ∀ l : List α, (∀ a ∈ l, f a = a) → l.map f = l := by
  intro l h
  induction l with
  | nil => rfl
  | cons a as ih =>
    simp only [List.map_cons]
    rw [h a (List.mem_cons_self a as),
      ih fun x hx => h x (List.mem_cons_of_mem _ hx)]

/-- Full characterization of a successful `load_organizations_data` run. -/
theorem load_organizations_data_ok {path : List String} {sz : Nat}
    {rows : List OrgRow} {out : List OrgOutRow}
    (h : load_organizations_data path sz rows = Except.ok out) :
    out.length = rows.length ∧
      ∀ (j : Nat) (r : OrgRow), rows[j]? = some r →
        out[j]? = some (mkOut r (computeDerived r)) ∧
        validateOrganizationRecord r = Except.ok r := by
  unfold load_organizations_data at h
  split at h
  · cases h
  · cases hv : validateRows validateOrganizationRecord rows with
    | error ie => rw [hv] at h; cases h
    | ok valid =>
      rw [hv] at h
      cases h
      obtain ⟨hlen, hget⟩ := validateRowsFrom_ok validateOrganizationRecord 0 rows valid hv
      constructor
      · simp [List.length_zipWith, hlen]
      · intro j r hj
        obtain ⟨b, hb, hvj⟩ := hget j r hj
        have hbr : b = r := validateOrganizationRecord_ok_eq hb
        subst hbr
        refine ⟨?_, hb⟩
        rw [getElem?_zipWith]
        rw [hvj, List.getElem?_map, hj]
        simp

theorem filterByIdx_mem {α : Type} (p : Nat → Bool) :
    ∀ (j : Nat) (l : List α) (a : α), a ∈ filterByIdx p j l →
      ∃ k : Nat, l[k]? = some a ∧ p (j + k) = true := by
  intro j l
  induction l generalizing j with
  | nil => intro a h; simp [filterByIdx] at h
  | cons x xs ih =>
    intro a h
    simp only [filterByIdx] at h
    by_cases hp : p j
    · rw [if_pos hp] at h
      rcases List.mem_cons.mp h with rfl | h2
      · exact ⟨0, by simp, by simpa using hp⟩
      · obtain ⟨k, hk, hpk⟩ := ih (j + 1) a h2
        refine ⟨k + 1, by simpa using hk, ?_⟩
        have harith : j + (k + 1) = (j + 1) + k := by omega
        rw [harith]
        exact hpk
    · rw [if_neg hp] at h
      obtain ⟨k, hk, hpk⟩ := ih (j + 1) a h
      refine ⟨k + 1, by simpa using hk, ?_⟩
      have harith : j + (k + 1) = (j + 1) + k := by omega
      rw [harith]
      exact hpk

theorem filterByIdx_of_all {α : Type} (p : Nat → Bool) :
    ∀ (j : Nat) (l : List α), (∀ k : Nat, k < l.length → p (j + k) = true) →
      filterByIdx p j l = l := by
  intro j l
  induction l generalizing j with
  | nil => intro _; rfl
  | cons x xs ih =>
    intro h
    have h0 : p j = true := by simpa using h 0 (by simp)
    simp only [filterByIdx, if_pos h0]
    congr 1
    apply ih (j + 1)
    intro k hk
    have harith : (j + 1) + k = j + (k + 1) := by omega
    rw [harith]
    exact h (k + 1) (by simp only [List.length_cons]; omega)

theorem filterByIdx_length_kept {α : Type} (p : Nat → Bool) :
    ∀ (l : List α) (s : Nat),
      (filterByIdx p s l).length = keptBefore p s l.length := by
  intro l
  induction l with
  | nil => intro s; rfl
  | cons x xs ih =>
    intro s
    cases hps : p s
    · simp [filterByIdx, hps, keptBefore, ih (s + 1)]
    · simp [filterByIdx, hps, keptBefore, ih (s + 1)]
      omega

theorem filterByIdx_getElem?_kept {α : Type} (p : Nat → Bool) :
    ∀ (l : List α) (s j : Nat), j < l.length → p (s + j) = true →
      (filterByIdx p s l)[keptBefore p s j]? = l[j]? := by
  intro l
  induction l with
  | nil =>
    intro s j hj _
    simp at hj
  | cons x xs ih =>
    intro s j hj hp
    cases j with
    | zero =>
      have hps : p s = true := by simpa using hp
      simp [filterByIdx, hps, keptBefore]
    | succ j0 =>
      have hp2 : p ((s + 1) + j0) = true := by
        have harith : s + (j0 + 1) = (s + 1) + j0 := by omega
        rw [← harith]
        exact hp
      have hj2 : j0 < xs.length := by simpa using hj
      cases hps : p s
      · simp only [filterByIdx, hps, keptBefore, Bool.false_eq_true, if_false,
          Nat.zero_add, List.getElem?_cons_succ]
        exact ih (s + 1) j0 hj2 hp2
      · simp only [filterByIdx, hps, keptBefore, if_true]
        have h1m : 1 + keptBefore p (s + 1) j0 = keptBefore p (s + 1) j0 + 1 := by
          omega
        rw [h1m]
        simp only [List.getElem?_cons_succ]
        exact ih (s + 1) j0 hj2 hp2

theorem dedupByName_nil : dedupByName [] = [] := by rw [dedupByName]

theorem dedupByName_cons (g : GRow) (gs : List GRow) :
    dedupByName (g :: gs) =
      g :: dedupByName (gs.filter fun x => x.name != g.name) := by
  rw [dedupByName]

theorem dedupByName_subset : ∀ (l : List GRow), ∀ g ∈ dedupByName l, g ∈ l := by
  intro l
  induction l using dedupByName.induct with
  | case1 => simp [dedupByName_nil]
  | case2 g gs ih =>
    intro x hx
    rw [dedupByName_cons] at hx
    rcases List.mem_cons.mp hx with h | h
    · exact h ▸ List.mem_cons_self _ _
    · exact List.mem_cons_of_mem _ (List.mem_of_mem_filter (ih x h))

theorem dedupByName_names_nodup :
    ∀ l : List GRow, ((dedupByName l).map fun g => g.name).Nodup := by
  intro l
  induction l using dedupByName.induct with
  | case1 => simp [dedupByName_nil]
  | case2 g gs ih =>
    rw [dedupByName_cons]
    simp only [List.map_cons, List.nodup_cons]
    refine ⟨?_, ih⟩
    intro hmem
    obtain ⟨x, hx, hxname⟩ := List.mem_map.mp hmem
    have hxf := dedupByName_subset _ x hx
    have hne := (List.mem_filter.mp hxf).2
    rw [hxname] at hne
    simp at hne

theorem find?_eq_find?_filter {p q : GRow → Bool}
    (himp : ∀ x, p x = true → q x = true) :
    ∀ l : List GRow, List.find? p l = List.find? p (l.filter q) := by
  intro l
  induction l with
  | nil => rfl
  | cons a l ih =>
    by_cases hq : q a
    · rw [List.filter_cons_of_pos hq]
      by_cases hp : p a
      · simp [List.find?_cons_of_pos, hp]
      · rw [List.find?_cons_of_neg _ (by simpa using hp),
          List.find?_cons_of_neg _ (by simpa using hp)]
        exact ih
    · rw [List.filter_cons_of_neg (by simpa using hq)]
      have hp : ¬p a = true := fun hpa => hq (himp a hpa)
      rw [List.find?_cons_of_neg _ (by simpa using hp)]
      exact ih

theorem dedupByName_find? :
    ∀ l : List GRow, ∀ g ∈ dedupByName l,
      List.find? (fun x => x.name == g.name) l = some g := by
  intro l
  induction l using dedupByName.induct with
  | case1 => simp [dedupByName_nil]
  | case2 h gs ih =>
    intro g hg
    rw [dedupByName_cons] at hg
    rcases List.mem_cons.mp hg with rfl | hg2
    · exact List.find?_cons_of_pos _ (by simp)
    · have hgf := dedupByName_subset _ g hg2
      have hne := (List.mem_filter.mp hgf).2
      have hne2 : g.name ≠ h.name := by simpa using hne
      rw [List.find?_cons_of_neg _ (by simpa using fun e => hne2 e.symm)]
      rw [find?_eq_find?_filter (q := fun x => x.name != h.name) ?imp gs]
      · exact ih g hg2
      case imp =>
        intro x hx
        have hx2 : x.name = g.name := by simpa using hx
        simp [hx2, hne2]

theorem dedupByName_names_complete :
    ∀ l : List GRow, ∀ n, n ∈ l.map (fun g => g.name) →
      n ∈ (dedupByName l).map fun g => g.name := by
  intro l
  induction l using dedupByName.induct with
  | case1 => simp
  | case2 g gs ih =>
    intro n hn
    rw [dedupByName_cons]
    simp only [List.map_cons, List.mem_cons]
    rcases (by simpa using hn : n = g.name ∨ ∃ x ∈ gs, x.name = n) with
      h | ⟨x, hx, hxn⟩
    · exact Or.inl h
    · by_cases hng : n = g.name
      · exact Or.inl hng
      · refine Or.inr (ih n (List.mem_map.mpr ⟨x, ?_, hxn⟩))
        refine List.mem_filter.mpr ⟨hx, ?_⟩
        rw [hxn]
        simpa using hng

theorem filter_region_length_le_one {an : List ARow}
    (h : (an.map fun a => a.region).Nodup) (n : String) :
    (an.filter fun a => a.region == n).length ≤ 1 := by
  induction an with
  | nil => simp
  | cons a as ih =>
    simp only [List.map_cons, List.nodup_cons] at h
    obtain ⟨hna, hnd⟩ := h
    by_cases hr : a.region == n
    · have hnil : as.filter (fun a => a.region == n) = [] := by
        rw [List.filter_eq_nil_iff]
        intro x hx hpx
        apply hna
        have h1 : x.region = n := by simpa using hpx
        have h2 : a.region = n := by simpa using hr
        exact List.mem_map.mpr ⟨x, hx, by rw [h1, h2]⟩
      simp [List.filter_cons, hr, hnil]
    · simpa [List.filter_cons, hr] using ih hnd

theorem leftMergeOnName_names {an : List ARow}
    (h1 : ∀ n, (an.filter fun a => a.region == n).length ≤ 1) :
    ∀ geo : List GRow,
      (leftMergeOnName geo an).map (fun m => m.geo.name) =
        geo.map fun g => g.name := by
  intro geo
  induction geo with
  | nil => rfl
  | cons g gs ih =>
    simp only [leftMergeOnName, List.flatMap_cons, List.map_append] at *
    cases hf : an.filter (fun a => a.region == g.name) with
    | nil => simp [hf, ih]
    | cons a tail =>
      have htail : tail = [] := by
        have hlen := h1 g.name
        rw [hf] at hlen
        simpa using hlen
      subst htail
      simp [hf, ih]

theorem leftMergeOnName_preserves (geo : List GRow) (an : List ARow) :
    ∀ g ∈ geo, ∃ m ∈ leftMergeOnName geo an, m.geo = g := by
  intro g hg
  cases hf : an.filter (fun a => a.region == g.name) with
  | nil =>
    refine ⟨{ geo := g, analytic := none }, List.mem_flatMap.mpr ⟨g, hg, ?_⟩, rfl⟩
    simp [hf]
  | cons a tail =>
    refine ⟨{ geo := g, analytic := some a }, List.mem_flatMap.mpr ⟨g, hg, ?_⟩, rfl⟩
    simp [hf]

theorem leftMergeOnName_sound (geo : List GRow) (an : List ARow) :
    ∀ m ∈ leftMergeOnName geo an, m.geo ∈ geo ∧
      ∀ a, m.analytic = some a → a.region = m.geo.name := by
  intro m hm
  obtain ⟨g, hg, hmf⟩ := List.mem_flatMap.mp hm
  cases hf : an.filter (fun a => a.region == g.name) with
  | nil =>
    rw [hf] at hmf
    simp only [List.mem_singleton] at hmf
    subst hmf
    exact ⟨hg, fun a ha => by cases ha⟩
  | cons a0 tail =>
    rw [hf] at hmf
    obtain ⟨a, ha, rfl⟩ := List.mem_map.mp hmf
    refine ⟨hg, fun a2 h2 => ?_⟩
    cases h2
    have haf : a ∈ an.filter (fun a => a.region == g.name) := by rw [hf]; exact ha
    simpa using (List.mem_filter.mp haf).2

/-! ### Claims -/

/-- C3: `CSVLoader.load_organizations_data` computes the four derived columns
from the raw input before any validation runs, validates exactly the eight raw
input columns against the strict `OrganizationRecord` schema (the validator's
domain `OrgRow` holds only the raw columns, so the derived columns are excluded
from the check), and re-attaches the derived columns to the validated output so
that each output row's derived values are the ones computed from that same
row's raw inputs. -/
theorem load_organizations_derived_preserved :
    ∀ (path : List String) (sz : Nat) (rows : List OrgRow) (out : List OrgOutRow),
      load_organizations_data path sz rows = Except.ok out →
      out.length = rows.length ∧
        ∀ (j : Nat) (r : OrgRow), rows[j]? = some r →
          validateOrganizationRecord r = Except.ok r ∧
          out[j]? = some (mkOut r (computeDerived r)) := by
  intro path sz rows out h
  obtain ⟨hlen, hget⟩ := load_organizations_data_ok h
  exact ⟨hlen, fun j r hj => ⟨(hget j r hj).2, (hget j r hj).1⟩⟩

/-- Witness for C3 at the spec's scenario row. -/
theorem load_organizations_derived_preserved_witness :
    validateOrganizationRecord exOrgRow = Except.ok exOrgRow ∧
    [mkOut exOrgRow (computeDerived exOrgRow)][0]? =
      some (mkOut exOrgRow (computeDerived exOrgRow)) := by
  have hload : load_organizations_data ["orgs.csv"] 10 [exOrgRow] =
      Except.ok [mkOut exOrgRow (computeDerived exOrgRow)] := rfl
  have h :=
    (load_organizations_derived_preserved ["orgs.csv"] 10 [exOrgRow]
      [mkOut exOrgRow (computeDerived exOrgRow)] hload).2 0 exOrgRow rfl
  exact ⟨h.1, h.2⟩

/-- C2: for every organization row that passes validation and has non-zero
denominators, the derived columns of `load_organizations_data` satisfy the
four defining formulas and all lie in `[0, 1]`. -/
theorem org_metrics_unit_interval :
    ∀ (path : List String) (sz : Nat) (rows : List OrgRow) (out : List OrgOutRow),
      load_organizations_data path sz rows = Except.ok out →
      ∀ o ∈ out, o.by_staff ≠ 0 → o.buget_limits ≠ 0 → o.equipment ≠ 0 →
        o.staffing = (o.by_list : ℚ) / (o.by_staff : ℚ) ∧
        o.cash_use = (o.cash_execution : ℚ) / (o.buget_limits : ℚ) ∧
        o.serviceability =
          ((o.equipment : ℚ) - (o.faulty_equipment : ℚ)) / (o.equipment : ℚ) ∧
        o.value = min o.staffing (min o.cash_use o.serviceability) ∧
        (0 ≤ o.staffing ∧ o.staffing ≤ 1) ∧
        (0 ≤ o.cash_use ∧ o.cash_use ≤ 1) ∧
        (0 ≤ o.serviceability ∧ o.serviceability ≤ 1) ∧
        (0 ≤ o.value ∧ o.value ≤ 1) := by
  intro path sz rows out h o ho hbs hbu heq
  obtain ⟨hlen, hget⟩ := load_organizations_data_ok h
  obtain ⟨j, hj⟩ := List.mem_iff_getElem?.mp ho
  have hjlt : j < out.length := by
    rcases List.getElem?_eq_some.mp hj with ⟨hlt, -⟩
    exact hlt
  have hjr : j < rows.length := by omega
  have hr : rows[j]? = some rows[j] := List.getElem?_eq_getElem hjr
  obtain ⟨hout, hval⟩ := hget j rows[j] hr
  rw [hj] at hout
  cases hout
  set r := rows[j] with hrdef
  obtain ⟨⟨hbs0, -⟩, ⟨hbl0, -⟩, ⟨hbu0, -⟩, ⟨hce0, -⟩, ⟨heq0, -⟩, ⟨hfe0, -⟩,
    hlbs, hceb, hfee⟩ := validateOrganizationRecord_ok_bounds hval
  have hbs2 : r.by_staff ≠ 0 := hbs
  have hbu2 : r.buget_limits ≠ 0 := hbu
  have heq2 : r.equipment ≠ 0 := heq
  have h1 := ratio_unit hbl0 hlbs hbs2
  have h2 := ratio_unit hce0 hceb hbu2
  have h3 := ratio_unit (a := r.equipment - r.faulty_equipment) (b := r.equipment)
    (by omega) (by omega) heq2
  push_cast at h3
  exact ⟨rfl, rfl, rfl, rfl, h1, h2, h3,
    le_min h1.1 (le_min h2.1 h3.1), le_trans (min_le_left _ _) h1.2⟩

/-- Witness for C2: the spec scenario row yields `value = 4/5 ∈ [0, 1]`. -/
theorem org_metrics_unit_interval_witness :
    (0 : ℚ) ≤ (mkOut exOrgRow (computeDerived exOrgRow)).value ∧
      (mkOut exOrgRow (computeDerived exOrgRow)).value ≤ 1 := by
  have hload : load_organizations_data ["orgs.csv"] 10 [exOrgRow] =
      Except.ok [mkOut exOrgRow (computeDerived exOrgRow)] := rfl
  have h :=
    org_metrics_unit_interval ["orgs.csv"] 10 [exOrgRow]
      [mkOut exOrgRow (computeDerived exOrgRow)] hload
      (mkOut exOrgRow (computeDerived exOrgRow))
      (List.mem_singleton.mpr rfl) (by decide) (by decide) (by decide)
  exact h.2.2.2.2.2.2.2

/-- C4 counterexample: a file with two invalid rows is rejected with an error
that carries only the FIRST invalid row's violations (`badOrg2`'s violation of
`equipment` is absent from the reported error), so violations are NOT
aggregated across all invalid rows. -/
theorem load_organizations_first_error_counterexample :
    validateOrganizationRecord badOrg1 =
      Except.error [OrgViolation.fieldRange "by_staff"] ∧
    validateOrganizationRecord badOrg2 =
      Except.error [OrgViolation.fieldRange "equipment"] ∧
    load_organizations_data ["orgs.csv"] 10 [badOrg1, badOrg2] =
      Except.error
        (LoadError.validation ["orgs.csv"] 0 [OrgViolation.fieldRange "by_staff"]) :=
  ⟨by decide, by decide, by decide⟩

/-- C4 amended: each of `load_organizations_data`, `load_analytic_data` and
`load_csv` fails on a file containing an invalid row with an error naming the
offending file and carrying the violations of the FIRST invalid row (every row
before it validates successfully); later rows are not examined, so violations
are not aggregated across invalid rows. -/
theorem csv_loaders_report_first_invalid_row :
    ∀ (path : List String) (sz : Nat), sz ≤ MAX_FILE_SIZE →
      (∀ (rows : List OrgRow) (j : Nat) (e : List OrgViolation),
        validateRows validateOrganizationRecord rows = Except.error (j, e) →
        load_organizations_data path sz rows =
          Except.error (LoadError.validation path j e) ∧
        (∃ r, rows[j]? = some r ∧ validateOrganizationRecord r = Except.error e) ∧
        ∀ k, k < j → ∀ r, rows[k]? = some r →
          validateOrganizationRecord r = Except.ok r) ∧
      (∀ (rows : List AnalyticRawRow) (j : Nat) (e : List String),
        validateRows validateAnalyticRecord rows = Except.error (j, e) →
        load_analytic_data path sz rows =
          Except.error (LoadError.validation path j e) ∧
        (∃ r, rows[j]? = some r ∧ validateAnalyticRecord r = Except.error e) ∧
        ∀ k, k < j → ∀ r, rows[k]? = some r →
          ∃ b, validateAnalyticRecord r = Except.ok b) ∧
      (∀ (α β E : Type) (validate : α → Except E β)
        (base_dir : Option (List String)) (rows : List α) (j : Nat) (e : E),
        (∀ base, base_dir = some base → isDescendantOf path base = true) →
        validateRows validate rows = Except.error (j, e) →
        load_csv validate path base_dir sz rows =
          Except.error (LoadError.validation path j e) ∧
        (∃ r, rows[j]? = some r ∧ validate r = Except.error e) ∧
        ∀ k, k < j → ∀ r, rows[k]? = some r → ∃ b, validate r = Except.ok b) := by
  intro path sz hsz
  refine ⟨?_, ?_, ?_⟩
  · intro rows j e hv
    unfold validateRows at hv
    obtain ⟨-, ⟨r, hr, hre⟩, hbefore⟩ :=
      validateRowsFrom_error validateOrganizationRecord rows 0 j e hv
    rw [Nat.sub_zero] at hr hbefore
    refine ⟨?_, ⟨r, hr, hre⟩, ?_⟩
    · unfold load_organizations_data
      rw [if_neg (by omega)]
      unfold validateRows
      rw [hv]
    · intro k hk x hx
      obtain ⟨b, hb⟩ := hbefore k hk x hx
      have hbe := validateOrganizationRecord_ok_eq hb
      rwa [hbe] at hb
  · intro rows j e hv
    unfold validateRows at hv
    obtain ⟨-, ⟨r, hr, hre⟩, hbefore⟩ :=
      validateRowsFrom_error validateAnalyticRecord rows 0 j e hv
    rw [Nat.sub_zero] at hr hbefore
    refine ⟨?_, ⟨r, hr, hre⟩, hbefore⟩
    unfold load_analytic_data
    rw [if_neg (by omega)]
    unfold validateRows
    rw [hv]
  · intro α β E validate base_dir rows j e hbase hv
    unfold validateRows at hv
    obtain ⟨-, ⟨r, hr, hre⟩, hbefore⟩ :=
      validateRowsFrom_error validate rows 0 j e hv
    rw [Nat.sub_zero] at hr hbefore
    refine ⟨?_, ⟨r, hr, hre⟩, hbefore⟩
    cases base_dir with
    | none =>
      unfold load_csv
      rw [if_neg (by omega)]
      unfold validateRows
      rw [hv]
    | some base =>
      have hb := hbase base rfl
      simp only [load_csv, hb, if_true]
      rw [if_neg (by omega)]
      unfold validateRows
      rw [hv]

/-- Witness for C4 at all three loaders: the reported error names the file and
carries exactly the first invalid row's violations. -/
theorem csv_loaders_report_first_invalid_row_witness :
    load_organizations_data ["orgs.csv"] 10 [exOrgRow, badOrg1] =
      Except.error
        (LoadError.validation ["orgs.csv"] 1 [OrgViolation.fieldRange "by_staff"]) ∧
    load_analytic_data ["data.csv"] 10 [exBadAnalytic] =
      Except.error (LoadError.validation ["data.csv"] 0
        ["value: missing", "percent_change: missing", "budget_millions: missing",
         "population_change: missing", "details: missing"]) ∧
    load_csv validateOrganizationRecord ["data", "regions", "orgs.csv"]
        (some ["data", "regions"]) 10 [badOrg1] =
      Except.error
        (LoadError.validation ["data", "regions", "orgs.csv"] 0
          [OrgViolation.fieldRange "by_staff"]) := by
  have h1 := ((csv_loaders_report_first_invalid_row ["orgs.csv"] 10 (by decide)).1
    [exOrgRow, badOrg1] 1 [OrgViolation.fieldRange "by_staff"] (by decide)).1
  have h2 := ((csv_loaders_report_first_invalid_row ["data.csv"] 10 (by decide)).2.1
    [exBadAnalytic] 0
    ["value: missing", "percent_change: missing", "budget_millions: missing",
     "population_change: missing", "details: missing"] rfl).1
  have h3 := ((csv_loaders_report_first_invalid_row ["data", "regions", "orgs.csv"]
    10 (by decide)).2.2 OrgRow OrgRow (List OrgViolation) validateOrganizationRecord
    (some ["data", "regions"]) [badOrg1] 0 [OrgViolation.fieldRange "by_staff"]
    (fun base hb => by cases hb; rfl) (by decide)).1
  exact ⟨h1, h2, h3⟩

/-- C1 counterexample: the deduplicated geometry table holds the single region
`A`, yet with an analytic CSV containing two rows whose `region` is `A` the
merged output of `create_gdf` carries the name `A` twice — the left merge
duplicates a geometry row once per matching analytic row, so "appears exactly
once for ANY contents of the analytic CSV" fails. -/
theorem create_gdf_duplicate_name_counterexample :
    ((dedupByName (dropna_axis1 exT1).rows).map fun g => g.name) = ["A"] ∧
    ((create_gdf exT1 [exAnA1, exAnA2]).map fun m => m.geo.name) = ["A", "A"] := by
  constructor
  · simp [dropna_axis1, exT1, exGeoA, filterByIdx, dedupByName_cons, dedupByName_nil]
  · simp [create_gdf, dropna_axis1, exT1, exGeoA, filterByIdx, dedupByName_cons,
      dedupByName_nil, leftMergeOnName, exAnA1, exAnA2, List.filter]

/-- C1 amended: unconditionally — for ANY contents of the analytic table —
the merge of `create_gdf` is a left join: every row of the deduplicated
geometry table appears in the merged output (so each of its names appears at
least once), and no merged row carries metrics for a name absent from the
geometry table; when additionally the analytic table's `region` values are
pairwise distinct, every deduplicated geometry name appears EXACTLY once (the
merged name column equals the duplicate-free geometry name column). -/
theorem create_gdf_left_join_invariants :
    ∀ (t : GTable) (an : List ARow),
      (∀ g ∈ dedupByName (dropna_axis1 t).rows, ∃ m ∈ create_gdf t an, m.geo = g) ∧
      (∀ m ∈ create_gdf t an, m.geo ∈ dedupByName (dropna_axis1 t).rows ∧
        ∀ a, m.analytic = some a → a.region = m.geo.name) ∧
      ((an.map fun a => a.region).Nodup →
        ((create_gdf t an).map fun m => m.geo.name) =
          ((dedupByName (dropna_axis1 t).rows).map fun g => g.name) ∧
        ((create_gdf t an).map fun m => m.geo.name).Nodup) := by
  intro t an
  refine ⟨leftMergeOnName_preserves _ _, leftMergeOnName_sound _ _, ?_⟩
  intro hdup
  have h1 : ∀ n, (an.filter fun a => a.region == n).length ≤ 1 := fun n =>
    filter_region_length_le_one hdup n
  have hnames : ((create_gdf t an).map fun m => m.geo.name) =
      ((dedupByName (dropna_axis1 t).rows).map fun g => g.name) :=
    leftMergeOnName_names h1 (dedupByName (dropna_axis1 t).rows)
  refine ⟨hnames, ?_⟩
  rw [hnames]
  exact dedupByName_names_nodup _

/-- Witness for C1: the unconditional row-preservation part at the
duplicate-analytic input of the counterexample, and the exactly-once part at a
duplicate-free analytic table. -/
theorem create_gdf_left_join_invariants_witness :
    (∃ m ∈ create_gdf exT1 [exAnA1, exAnA2], m.geo = exGeoA) ∧
    ((create_gdf exTW [exAnA1]).map fun m => m.geo.name) =
      ((dedupByName (dropna_axis1 exTW).rows).map fun g => g.name) ∧
    ((create_gdf exTW [exAnA1]).map fun m => m.geo.name).Nodup := by
  have hW := (create_gdf_left_join_invariants exTW [exAnA1]).2.2 (by decide)
  have hd : dedupByName (dropna_axis1 exT1).rows = [exGeoA] := by
    simp [dropna_axis1, exT1, exGeoA, filterByIdx, dedupByName_cons, dedupByName_nil]
  have h1 := (create_gdf_left_join_invariants exT1 [exAnA1, exAnA2]).1 exGeoA
    (by rw [hd]; exact List.mem_singleton.mpr rfl)
  exact ⟨h1, hW.1, hW.2⟩

/-- C5 counterexample: the `cartodb_id` column of `exT5` holds one non-null
value and one null, so it is NOT entirely empty; `dropna(axis=1)` nevertheless
drops it (pandas' default `how="any"`), while the spec-modelled
"drop only entirely empty columns" operation keeps it. -/
theorem dropna_axis1_counterexample :
    (dropna_axis1 exT5).header = [] ∧
    (dropAllNullCols exT5).header = ["cartodb_id"] ∧
    (exT5.rows.map fun r => r.cells.getD 0 none) = [some (Json.num 37), none] :=
  ⟨rfl, rfl, rfl⟩

/-- C5 amended: a column is dropped iff it contains at least one null.
Dropped direction: after `dropna(axis=1)` every surviving cell is non-null,
and the surviving column count equals the number of columns with no null.
Retained direction: every column free of nulls survives — its header entry
and each row's cell reappear in the output at the position given by the
number of surviving columns to its left. When no column contains a null the
table is unchanged. -/
theorem dropna_axis1_drops_any_null_column :
    ∀ t : GTable,
      (∀ r ∈ (dropna_axis1 t).rows, ∀ c ∈ r.cells, c.isSome = true) ∧
      ((dropna_axis1 t).header.length =
        keptBefore (colComplete t.rows) 0 t.header.length) ∧
      (∀ j, j < t.header.length → colComplete t.rows j = true →
        (dropna_axis1 t).header[keptBefore (colComplete t.rows) 0 j]? =
          t.header[j]? ∧
        ∀ (i : Nat) (r : GRow), t.rows[i]? = some r →
          ∃ r2 : GRow, (dropna_axis1 t).rows[i]? = some r2 ∧
            r2.name = r.name ∧ r2.geometry = r.geometry ∧
            (j < r.cells.length →
              r2.cells[keptBefore (colComplete t.rows) 0 j]? = r.cells[j]?)) ∧
      ((∀ r ∈ t.rows, r.cells.length = t.header.length) →
        (∀ j, j < t.header.length → colComplete t.rows j = true) →
        dropna_axis1 t = t) := by
  intro t
  refine ⟨?_, ?_, ?_, ?_⟩
  · intro r hr c hc
    obtain ⟨r0, hr0, rfl⟩ := List.mem_map.mp hr
    obtain ⟨k, hk, hpk⟩ := filterByIdx_mem (colComplete t.rows) 0 r0.cells c hc
    rw [Nat.zero_add] at hpk
    have hall := List.all_eq_true.mp hpk
    have h2 := hall r0 hr0
    rw [List.getD_eq_getElem?_getD, hk] at h2
    simpa using h2
  · exact filterByIdx_length_kept (colComplete t.rows) t.header 0
  · intro j hj hcj
    constructor
    · exact filterByIdx_getElem?_kept (colComplete t.rows) t.header 0 j hj
        (by simpa using hcj)
    · intro i r hi
      refine ⟨{ r with cells := filterByIdx (colComplete t.rows) 0 r.cells },
        ?_, rfl, rfl, ?_⟩
      · have hmap : (dropna_axis1 t).rows =
            t.rows.map (fun x =>
              { x with cells := filterByIdx (colComplete t.rows) 0 x.cells }) := rfl
        rw [hmap, List.getElem?_map, hi]
        rfl
      · intro hjc
        exact filterByIdx_getElem?_kept (colComplete t.rows) r.cells 0 j hjc
          (by simpa using hcj)
  · intro hwf hcomp
    have hheader : filterByIdx (colComplete t.rows) 0 t.header = t.header :=
      filterByIdx_of_all _ 0 t.header fun k hk => by
        simpa using hcomp k hk
    have hrows : t.rows.map
        (fun r => { r with cells := filterByIdx (colComplete t.rows) 0 r.cells }) =
        t.rows := by
      apply map_eq_self_of_mem
      intro r hr
      have hcells : filterByIdx (colComplete t.rows) 0 r.cells = r.cells :=
        filterByIdx_of_all _ 0 r.cells fun k hk => by
          have hk2 : k < t.header.length := by rw [← hwf r hr]; exact hk
          simpa using hcomp k hk2
      rw [hcells]
    show dropna_axis1 t = t
    unfold dropna_axis1
    cases t with
    | mk header rows =>
      simp only [GTable.mk.injEq]
      exact ⟨hheader, hrows⟩

/-- Witness for C5: in a mixed table the null-free `name_latin` column is
retained (at position 0, the null-bearing `cartodb_id` column to its left
having been dropped), and a table with no nulls passes through unchanged. -/
theorem dropna_axis1_drops_any_null_column_witness :
    (dropna_axis1 exT5m).header[0]? = some "name_latin" ∧
    dropna_axis1 exT5w = exT5w := by
  have hret := ((dropna_axis1_drops_any_null_column exT5m).2.2.1 1
    (by decide) (by decide)).1
  have hk : keptBefore (colComplete exT5m.rows) 0 1 = 0 := by decide
  rw [hk] at hret
  refine ⟨?_, (dropna_axis1_drops_any_null_column exT5w).2.2.2 (by decide) (by decide)⟩
  rw [hret]
  rfl

/-- C6: after `GeoJSONLoader.load_all_regions` deduplication, region names are
pairwise distinct; the row kept for each name is the first row bearing that
name in concatenation (directory iteration) order, later occurrences being
dropped; and exactly the names of the concatenated table survive. -/
theorem load_all_regions_keeps_first_occurrence :
    ∀ t : GTable,
      (((load_all_regions t).rows.map fun g => g.name).Nodup) ∧
      (∀ g ∈ (load_all_regions t).rows,
        List.find? (fun x => x.name == g.name) (dropna_axis1 t).rows = some g) ∧
      (∀ n, n ∈ t.rows.map (fun g => g.name) ↔
        n ∈ (load_all_regions t).rows.map fun g => g.name) := by
  intro t
  have hrows : (load_all_regions t).rows = dedupByName (dropna_axis1 t).rows := rfl
  have hpres : t.rows.map (fun g => g.name) =
      (dropna_axis1 t).rows.map fun g => g.name := by
    simp [dropna_axis1, List.map_map]
  refine ⟨?_, ?_, ?_⟩
  · rw [hrows]
    exact dedupByName_names_nodup _
  · rw [hrows]
    exact dedupByName_find? _
  · intro n
    rw [hrows]
    constructor
    · intro hn
      exact dedupByName_names_complete _ n (hpres ▸ hn)
    · intro hn
      obtain ⟨g, hg, hgn⟩ := List.mem_map.mp hn
      have hsub := dedupByName_subset _ g hg
      rw [hpres]
      exact List.mem_map.mpr ⟨g, hsub, hgn⟩

/-- Witness for C6: a duplicated name is kept once, and no name is lost. -/
theorem load_all_regions_keeps_first_occurrence_witness :
    ((load_all_regions exT6).rows.map fun g => g.name).Nodup ∧
    "A" ∈ ((load_all_regions exT6).rows.map fun g => g.name) := by
  have h := load_all_regions_keeps_first_occurrence exT6
  exact ⟨h.1, (h.2.2 "A").mp (by decide)⟩

/-- C7: for a file passing the size guard (hence actually parsed),
`load_and_validate_geojson_file` fails with a structural error exactly when the
parsed feature count differs from one; the structural error carries the file
path and the count found; and a file with exactly one valid feature yields the
geometry row. -/
theorem single_feature_guard :
    ∀ f : GeoFileInput, f.fileSize ≤ MAX_FILE_SIZE →
      (f.features.length ≠ 1 →
        load_and_validate_geojson_file f =
          Except.error (GeoLoadError.structural f.path f.features.length)) ∧
      (∀ p c, load_and_validate_geojson_file f =
          Except.error (GeoLoadError.structural p c) →
        f.features.length ≠ 1 ∧ p = f.path ∧ c = f.features.length) ∧
      (∀ feat, f.features = [feat] → validFeature feat = true →
        load_and_validate_geojson_file f = Except.ok feat) := by
  intro f hsz
  obtain ⟨path, fsize, feats⟩ := f
  have hguard : ¬fsize > MAX_FILE_SIZE := by simpa using hsz
  cases feats with
  | nil =>
    have hload : load_and_validate_geojson_file ⟨path, fsize, []⟩ =
        Except.error (GeoLoadError.structural path 0) := by
      simp [load_and_validate_geojson_file, hguard]
    refine ⟨fun _ => hload, ?_, ?_⟩
    · intro p c h
      rw [hload] at h
      cases h
      exact ⟨by simp, rfl, rfl⟩
    · intro feat hfeat
      cases hfeat
  | cons a tail =>
    cases tail with
    | nil =>
      refine ⟨fun hne => absurd (by simp) hne, ?_, ?_⟩
      · intro p c h
        by_cases hv : validFeature a
        · rw [show load_and_validate_geojson_file ⟨path, fsize, [a]⟩ =
              Except.ok a from by
            simp [load_and_validate_geojson_file, hguard, hv]] at h
          cases h
        · rw [show load_and_validate_geojson_file ⟨path, fsize, [a]⟩ =
              Except.error (GeoLoadError.invalidFeature path) from by
            simp [load_and_validate_geojson_file, hguard, hv]] at h
          cases h
      · intro feat hfeat hv
        injection hfeat with h1 h2
        subst h1
        simp [load_and_validate_geojson_file, hguard, hv]
    | cons b t2 =>
      have hload : load_and_validate_geojson_file ⟨path, fsize, a :: b :: t2⟩ =
          Except.error (GeoLoadError.structural path (a :: b :: t2).length) := by
        simp [load_and_validate_geojson_file, hguard]
      refine ⟨fun _ => hload, ?_, ?_⟩
      · intro p c h
        rw [hload] at h
        cases h
        refine ⟨by simp, rfl, rfl⟩
      · intro feat hfeat
        simp at hfeat

/-- Witness for C7: a two-feature file fails naming path and count, a valid
one-feature file loads. -/
theorem single_feature_guard_witness :
    load_and_validate_geojson_file exGeoFileTwo =
      Except.error (GeoLoadError.structural ["regions", "two.geojson"] 2) ∧
    load_and_validate_geojson_file exGeoFileOk = Except.ok featOk := by
  have h2 := single_feature_guard exGeoFileTwo (by decide)
  have h1 := single_feature_guard exGeoFileOk (by decide)
  exact ⟨h2.1 (by decide), h1.2.2 featOk rfl (by decide)⟩

/-- C8: with `base_dir` supplied, if the resolved path is not a descendant of
the resolved base then `load_csv` fails with the path-traversal error whatever
the file's size or contents (the guard fires before `path.stat()` and
`pd.read_csv`, so the file is never read); if it is a descendant, the guard
passes and no traversal error can be produced. -/
theorem load_csv_traversal_guard :
    ∀ {α β E : Type} (validate : α → Except E β) (path base : List String),
      (isDescendantOf path base = false →
        ∀ (sz : Nat) (rows : List α),
          load_csv validate path (some base) sz rows =
            Except.error (LoadError.traversal path base)) ∧
      (isDescendantOf path base = true →
        ∀ (sz : Nat) (rows : List α) (p b : List String),
          load_csv validate path (some base) sz rows ≠
            Except.error (LoadError.traversal p b)) := by
  intro α β E validate path base
  constructor
  · intro hfail sz rows
    simp [load_csv, hfail]
  · intro hpass sz rows p b h
    simp only [load_csv, hpass, if_true] at h
    split at h
    · simp at h
    · split at h
      · simp at h
      · simp at h

/-- Witness for C8 at the spec's example: `/etc/passwd` against base
`/data/regions` is rejected with the traversal error even for an oversized
file. -/
theorem load_csv_traversal_guard_witness :
    load_csv validateOrganizationRecord ["etc", "passwd"]
        (some ["data", "regions"]) (MAX_FILE_SIZE + 1) [exOrgRow] =
      Except.error (LoadError.traversal ["etc", "passwd"] ["data", "regions"]) :=
  (load_csv_traversal_guard validateOrganizationRecord ["etc", "passwd"]
    ["data", "regions"]).1 rfl (MAX_FILE_SIZE + 1) [exOrgRow]

/-- C9 counterexample: `DataLoader._load_and_validate_geojson_file` — the
per-file GeoJSON load operation that `DataLoader.create_gdf` actually uses —
performs no size check: a file one byte over the 100 MiB limit is parsed and
loaded successfully, refuting "every load operation checks the input file's
size before parsing". -/
theorem dataloader_size_guard_missing_counterexample :
    bigGeoFile.fileSize > MAX_FILE_SIZE ∧
    DataLoader_load_and_validate_geojson_file bigGeoFile = Except.ok featOk :=
  ⟨Nat.lt_succ_self MAX_FILE_SIZE, rfl⟩

/-- C9 amended: the loaders of `CSVLoader` and the module-level
`load_and_validate_geojson_file` of `geojson_loader.py` do check the size
before parsing and reject any file strictly larger than 104857600 bytes
regardless of contents; the duplicated internal loaders of `DataLoader` do
not (see the counterexample). -/
theorem size_guard_on_guarded_loaders :
    ∀ (path : List String) (sz : Nat), sz > MAX_FILE_SIZE →
      (∀ rows, load_analytic_data path sz rows =
        Except.error (LoadError.size path sz)) ∧
      (∀ rows, load_organizations_data path sz rows =
        Except.error (LoadError.size path sz)) ∧
      (∀ (α β E : Type) (validate : α → Except E β) (rows : List α),
        load_csv validate path none sz rows =
          Except.error (LoadError.size path sz)) ∧
      (∀ (α β E : Type) (validate : α → Except E β) (base : List String)
        (rows : List α), isDescendantOf path base = true →
        load_csv validate path (some base) sz rows =
          Except.error (LoadError.size path sz)) ∧
      (∀ features, load_and_validate_geojson_file
          { path := path, fileSize := sz, features := features } =
        Except.error (GeoLoadError.size path sz)) := by
  intro path sz hsz
  refine ⟨fun rows => ?_, fun rows => ?_, fun α β E validate rows => ?_,
    fun α β E validate base rows hbase => ?_, fun features => ?_⟩
  · simp [load_analytic_data, hsz]
  · simp [load_organizations_data, hsz]
  · simp [load_csv, hsz]
  · simp [load_csv, hbase, hsz]
  · simp [load_and_validate_geojson_file, hsz]

/-- Witness for C9: one byte over the limit is rejected by the guarded GeoJSON
loader whatever the contents. -/
theorem size_guard_on_guarded_loaders_witness :
    load_and_validate_geojson_file bigGeoFile =
      Except.error
        (GeoLoadError.size ["regions", "big.geojson"] (MAX_FILE_SIZE + 1)) := by
  have h := size_guard_on_guarded_loaders ["regions", "big.geojson"]
    (MAX_FILE_SIZE + 1) (Nat.lt_succ_self MAX_FILE_SIZE)
  exact h.2.2.2.2 [featOk]

/-- C10: the size guard is strict — the size-limit error is raised if and only
if the file's size strictly exceeds 104857600 bytes; a file of exactly the
limit passes the guard and, when otherwise valid, is loaded. -/
theorem size_guard_strict_boundary :
    (∀ f : GeoFileInput,
      isGeoSizeFailure (load_and_validate_geojson_file f) = true ↔
        f.fileSize > MAX_FILE_SIZE) ∧
    (∀ (α β E : Type) (validate : α → Except E β) (path : List String)
      (sz : Nat) (rows : List α),
      isCsvSizeFailure (load_csv validate path none sz rows) = true ↔
        sz > MAX_FILE_SIZE) ∧
    (∀ (f : GeoFileInput) (feat : RawFeature), f.fileSize = MAX_FILE_SIZE →
      f.features = [feat] → validFeature feat = true →
      load_and_validate_geojson_file f = Except.ok feat) := by
  refine ⟨?_, ?_, ?_⟩
  · intro f
    by_cases h : f.fileSize > MAX_FILE_SIZE
    · simp [load_and_validate_geojson_file, h, isGeoSizeFailure]
    · simp only [load_and_validate_geojson_file, if_neg h]
      rcases hfeat : f.features with - | ⟨a, - | ⟨b, t2⟩⟩
      · simp [isGeoSizeFailure, h]
      · by_cases hv : validFeature a
        · simp [isGeoSizeFailure, hv, h]
        · simp [isGeoSizeFailure, hv, h]
      · simp [isGeoSizeFailure, h]
  · intro α β E validate path sz rows
    by_cases h : sz > MAX_FILE_SIZE
    · simp [load_csv, h, isCsvSizeFailure]
    · simp only [load_csv, if_neg h]
      cases hv : validateRows validate rows with
      | error ie => simp [hv, isCsvSizeFailure, h]
      | ok valid => simp [hv, isCsvSizeFailure, h]
  · intro f feat hsz hfeat hv
    unfold load_and_validate_geojson_file
    rw [hsz, if_neg (by omega), hfeat]
    simp [hv]

/-- Witness for C10: a file of exactly 104857600 bytes passes the guard and
loads. -/
theorem size_guard_strict_boundary_witness :
    load_and_validate_geojson_file boundaryGeoFile = Except.ok featOk ∧
    isGeoSizeFailure (load_and_validate_geojson_file boundaryGeoFile) = false := by
  have h3 := size_guard_strict_boundary.2.2 boundaryGeoFile featOk rfl rfl (by decide)
  exact ⟨h3, by rw [h3]; rfl⟩

end DeptConsole
